import Mathlib

/-!
Verification of the company-search client's data pipeline: the field parser
(`parseJSON`), the funding-row classifier (`totalsRow` / `regularRows`), the
year-bucket aggregator (`fundingHistoryChart`), the view-model assembly of the
company modal, and the advanced-search filter stripping (`validFilters`).

JavaScript dynamic values are embedded as the inductive type `Json`; JS numbers
are modelled as exact rationals (the code accumulates sums in full precision;
the rational model makes that precise).  Field access on decoded objects,
truthiness, `JSON.parse`, `new Date(s).getFullYear()` on the slash-separated
date strings used by the data set, `String(v)`, the strip-and-`parseFloat`
currency parse, `toFixed(2)`, and `Object.entries` + `sort` are each given an
explicit executable model below, next to the code they embed.
-/

namespace Sheet

/-- Model of a decoded JavaScript/JSON value.  `null`, booleans, numbers
(exact rationals standing for JS floats), strings, arrays and objects;
the absent value `undefined` is represented by `Option.none` at use sites. -/
inductive Json where
  | null : Json
  | bool : Bool → Json
  | num : ℚ → Json
  | str : String → Json
  | arr : List Json → Json
  | obj : List (String × Json) → Json

/-- Model of the JS property read `v[k]` on a decoded value in the cases
where JS produces a value: `none` (that is, `undefined`) unless `v` is an
object carrying key `k`; with duplicate keys the last occurrence wins, as in
`JSON.parse`.  A read on a `null` base produces no value in JS — it throws a
`TypeError` — so this total function (which maps that case to `none`) is a
faithful model only at call sites whose base is known non-null; the error
path is modelled explicitly by `jsFieldChecked` below and carried through
the classifier by the checked variants of its callbacks. -/
def jsField : Json → String → Option Json
  | Json.obj l, k => List.lookup k l.reverse
  | _, _ => none

/-- Model of the JS property read `v[k]` including the error path: a read on
a `null` base throws a `TypeError` (a decoded JSON array may contain `null`
elements, and the classifier callbacks on part_002 lines 83-84 read
properties of each element unguarded). -/
def jsFieldChecked : Json → String → Except String (Option Json)
  | Json.null, _ => Except.error "TypeError"
  | v, k => Except.ok (jsField v k)

/-- Model of JS truthiness of a possibly-absent value: `undefined`, `null`,
`false`, `0` and the empty string are falsy, everything else is truthy. -/
def jsTruthy : Option Json → Bool
  | none => false
  | some Json.null => false
  | some (Json.bool b) => b
  | some (Json.num q) => decide (q ≠ 0)
  | some (Json.str s) => decide (s ≠ "")
  | some (Json.arr _) => true
  | some (Json.obj _) => true

/-- Embeds the test `row['Share Class'] === 'Totals'` from CompanyModal
(part_002 lines 83-84): strict equality against the string literal. -/
def isTotals (row : Json) : Bool :=
  match jsField row "Share Class" with
  | some (Json.str s) => s == "Totals"
  | _ => false

/-- Embeds `fundingHistoryTable.find(row => row['Share Class'] === 'Totals')`
(part_002 line 83): the first matching row, if any. -/
def totalsRow (rows : List Json) : Option Json :=
  rows.find? isTotals

/-- Embeds `fundingHistoryTable.filter(row => row['Share Class'] !== 'Totals')`
(part_002 line 84): every matching row is removed. -/
def regularRows (rows : List Json) : List Json :=
  rows.filter (fun r => !(isTotals r))

/-- Numeric value of a list of decimal digit characters, most significant
first (helper shared by the date model and the number parsers). -/
def digitsToNat (cs : List Char) : Nat :=
  cs.foldl (fun n c => n * 10 + (c.toNat - 48)) 0

/-- True when the character list is a nonempty run of decimal digits. -/
def isDigits (cs : List Char) : Bool :=
  !cs.isEmpty && cs.all Char.isDigit

/-- Splits a character list at every slash (model of the grouping the JS
`Date` parser applies to `M/D/YYYY` strings). -/
def splitSlash : List Char → List (List Char)
  | [] => [[]]
  | c :: cs =>
    if c = '/' then [] :: splitSlash cs
    else
      match splitSlash cs with
      | [] => [[c]]
      | g :: gs => (c :: g) :: gs

/-- Models `new Date(v).getFullYear()` as used on part_002 line 93, restricted
to the slash-separated `M/D/YYYY` date strings of the data set (§6 of the
spec: dates arrive as free-form strings like `7/22/2021`): month `1..12`
(one or two digits), day `1..31` (one or two digits; day overflow inside a
month rolls within the same year in JS, so the year component is `YYYY`
regardless), and a four-digit year.  Every other value gives `none`,
standing for the JS `Invalid Date` whose `getFullYear()` is `NaN`. -/
def jsDateYear : Option Json → Option Nat
  | some (Json.str s) =>
    match splitSlash s.data with
    | [mc, dc, yc] =>
      if isDigits mc ∧ mc.length ≤ 2 ∧ 1 ≤ digitsToNat mc ∧ digitsToNat mc ≤ 12
          ∧ isDigits dc ∧ dc.length ≤ 2 ∧ 1 ≤ digitsToNat dc ∧ digitsToNat dc ≤ 31
          ∧ isDigits yc ∧ yc.length = 4 then
        some (digitsToNat yc)
      else none
    | _ => none
  | _ => none

/-- Embeds `new Date(dateStr).getFullYear().toString()` (part_002 line 93):
the year rendered in decimal, or the string `"NaN"` for an invalid date
(`(NaN).toString()` is the three-letter string `"NaN"`). -/
def yearStringOf (round : Json) : String :=
  match jsDateYear (jsField round "Date of Financing") with
  | some y => toString y
  | none => "NaN"

/-- Decimal rendering of a rational, modelling JS `String(number)` for values
whose decimal expansion terminates within 40 digits (all amounts produced by
the strip-and-parse below are of this shape); numbers with a non-terminating
expansion are approximated by a digit-free marker, which no claim exercises. -/
def ratRepr (q : ℚ) : String :=
  let sign := if q < 0 then "-" else ""
  let a := |q|
  if a.den = 1 then sign ++ toString a.num.natAbs
  else
    match (List.range 40).find? (fun k => decide ((a * (10 : ℚ) ^ k).den = 1)) with
    | some k =>
      let n := toString (a * (10 : ℚ) ^ k).num.natAbs
      let s := if n.length ≤ k then String.mk (List.replicate (k + 1 - n.length) '0') ++ n else n
      sign ++ s.take (s.length - k) ++ "." ++ s.drop (s.length - k)
    | none => sign ++ "#nonterminating#"

mutual

/-- Models the JS `String(v)` conversion: `null`, booleans and numbers render
to their literal spellings, strings pass through, arrays render as their
elements joined with commas (with `null` elements rendering empty, as
`Array.prototype.join` does), objects render as `[object Object]`. -/
def jsStringOfJson : Json → String
  | Json.null => "null"
  | Json.bool true => "true"
  | Json.bool false => "false"
  | Json.num q => ratRepr q
  | Json.str s => s
  | Json.arr l => jsStringOfList l
  | Json.obj _ => "[object Object]"

/-- Comma-join of array elements for `jsStringOfJson`, with `null` elements
rendered as the empty string (JS `Array.prototype.join` semantics). -/
def jsStringOfList : List Json → String
  | [] => ""
  | [Json.null] => ""
  | [x] => jsStringOfJson x
  | Json.null :: xs => "," ++ jsStringOfList xs
  | x :: xs => jsStringOfJson x ++ "," ++ jsStringOfList xs

end

/-- Models `parseFloat` applied to a string containing only decimal digits
and dots (the shape produced by the strip below): the longest prefix of the
form `digits [ . digits ]` is read, `none` standing for `NaN` when no digit
is present before the first non-numeric position. -/
def parseFloatPrefix (s : String) : Option ℚ :=
  let cs := s.data
  let d1 := cs.takeWhile Char.isDigit
  let rest := cs.drop d1.length
  let d2 :=
    match rest with
    | '.' :: t => t.takeWhile Char.isDigit
    | _ => []
  if d1.isEmpty ∧ d2.isEmpty then none
  else some ((digitsToNat d1 : ℚ) + (digitsToNat d2 : ℚ) / (10 : ℚ) ^ d2.length)

/-- Embeds `parseFloat(String(round['Total Financing Size']).replace(/[^0-9.]/g, ''))`
(part_002 line 96): stringify the field value (`undefined` reads back as the
literal `"undefined"`), strip every character that is not a digit or a dot,
then `parseFloat`; `none` stands for `NaN`. -/
def jsAmount (v : Option Json) : Option ℚ :=
  let s :=
    match v with
    | none => "undefined"
    | some j => jsStringOfJson j
  parseFloatPrefix (String.mk (s.data.filter (fun c => c.isDigit || c == '.')))

/-- Models `parseFloat(x.toFixed(2))` (part_002 line 106) in the rational
model: round to two decimal places, half away from zero towards plus
infinity, exactly as `toFixed` picks the larger candidate on ties. -/
def round2 (q : ℚ) : ℚ :=
  (Rat.floor (q * 100 + 1 / 2) : ℚ) / 100

/-- Embeds `acc[year] = (acc[year] || 0) + x` on a JS object modelled as an
association list in insertion order: an existing key keeps its position and
accumulates, a fresh key is appended at the end. -/
def addToYear (acc : List (String × ℚ)) (y : String) (x : ℚ) : List (String × ℚ) :=
  match acc with
  | [] => [(y, x)]
  | (k, v) :: t => if k = y then (k, v + x) :: t else (k, v) :: addToYear t y x

/-- Embeds the body of the `reduce` on part_002 lines 91-103: compute the year
string (truthy even for invalid dates, since `"NaN"` is nonempty), parse the
amount, and accumulate `amount / 1000000` under the year key when the year
string is truthy and the amount is not `NaN`. -/
def chartStep (acc : List (String × ℚ)) (round : Json) : List (String × ℚ) :=
  let year := yearStringOf round
  match jsAmount (jsField round "Total Financing Size") with
  | some a => if year = "" then acc else addToYear acc year (a / 1000000)
  | none => acc

/-- Embeds the `fundingHistoryChart` computation (part_002 lines 87-108):
filter to rows with a truthy `Date of Financing`, fold the year buckets,
round each bucket to two decimals at emission, and sort ascending by the
year string (the `localeCompare` sort, which on these digit strings and on
`"NaN"` coincides with code-point lexicographic order). -/
def fundingHistoryChart (regular : List Json) : List (String × ℚ) :=
  let data := regular.filter (fun r => jsTruthy (jsField r "Date of Financing"))
  let byYear := data.foldl chartStep []
  let chartData :=
    List.insertionSort (fun p q : String × ℚ => p.1 ≤ q.1)
      (byYear.map (fun p => (p.1, round2 p.2)))
  if chartData.length > 0 then chartData else []

/-- JSON insignificant whitespace (the four characters `JSON.parse` skips). -/
def isWs (c : Char) : Bool :=
  c == ' ' || c == '\t' || c == '\n' || c == '\r'

/-- Drops leading JSON whitespace. -/
def skipWs (cs : List Char) : List Char :=
  cs.dropWhile isWs

/-- Value of a hexadecimal digit, for `\u` escapes. -/
def hexVal : Char → Option Nat :=
  fun c =>
    if c.isDigit then some (c.toNat - 48)
    else if 'a' ≤ c ∧ c ≤ 'f' then some (c.toNat - 87)
    else if 'A' ≤ c ∧ c ≤ 'F' then some (c.toNat - 55)
    else none

/-- Single-character JSON string escapes. -/
def escChar : Char → Option Char
  | '"' => some '"'
  | '\\' => some '\\'
  | '/' => some '/'
  | 'b' => some (Char.ofNat 8)
  | 'f' => some (Char.ofNat 12)
  | 'n' => some '\n'
  | 'r' => some '\r'
  | 't' => some '\t'
  | _ => none

/-- JSON string-literal body parser (the opening quote already consumed):
returns the decoded content and the rest of the input, `none` on a malformed
literal.  Raw control characters are rejected as in `JSON.parse`; a `\u`
escape decodes to the scalar value when it is a valid code point. -/
def pString : List Char → Option (String × List Char)
  | [] => none
  | c :: cs =>
    if c = '"' then some ("", cs)
    else if c = '\\' then
      match cs with
      | [] => none
      | e :: cs2 =>
        if e = 'u' then
          match cs2 with
          | h1 :: h2 :: h3 :: h4 :: cs3 =>
            match hexVal h1, hexVal h2, hexVal h3, hexVal h4 with
            | some a, some b, some c3, some d =>
              match pString cs3 with
              | some (s, rest) =>
                some (String.mk (Char.ofNat (((a * 16 + b) * 16 + c3) * 16 + d) :: s.data), rest)
              | none => none
            | _, _, _, _ => none
          | _ => none
        else
          match escChar e with
          | some ch =>
            match pString cs2 with
            | some (s, rest) => some (String.mk (ch :: s.data), rest)
            | none => none
          | none => none
    else if c.toNat < 32 then none
    else
      match pString cs with
      | some (s, rest) => some (String.mk (c :: s.data), rest)
      | none => none

/-- Splits a leading run of decimal digits from the input. -/
def pDigits (cs : List Char) : List Char × List Char :=
  (cs.takeWhile Char.isDigit, cs.dropWhile Char.isDigit)

/-- JSON number parser, following the `JSON.parse` grammar exactly: optional
minus, an integer part without leading zeros, an optional fraction with at
least one digit, an optional exponent with at least one digit; the value is
the exact rational the literal denotes. -/
def pNumber (cs : List Char) : Option (ℚ × List Char) :=
  let signedTail :=
    match cs with
    | '-' :: t => (true, t)
    | _ => (false, cs)
  let neg := signedTail.1
  let cs1 := signedTail.2
  let ipr := pDigits cs1
  let ip := ipr.1
  if ip.isEmpty then none
  else if 1 < ip.length ∧ ip.head? = some '0' then none
  else
    let step2 : Option (ℚ × List Char) :=
      match ipr.2 with
      | '.' :: t =>
        let fpr := pDigits t
        if fpr.1.isEmpty then none
        else some ((digitsToNat ip : ℚ) + (digitsToNat fpr.1 : ℚ) / (10 : ℚ) ^ fpr.1.length, fpr.2)
      | r1 => some ((digitsToNat ip : ℚ), r1)
    match step2 with
    | none => none
    | some (base, r2) =>
      let step3 : Option (ℚ × List Char) :=
        match r2 with
        | e :: t =>
          if e = 'e' ∨ e = 'E' then
            let esigned :=
              match t with
              | '+' :: t2 => ((1 : ℤ), t2)
              | '-' :: t2 => ((-1 : ℤ), t2)
              | _ => ((1 : ℤ), t)
            let epr := pDigits esigned.2
            if epr.1.isEmpty then none
            else some (base * (10 : ℚ) ^ (esigned.1 * (digitsToNat epr.1 : ℤ)), epr.2)
          else some (base, r2)
        | [] => some (base, [])
      step3.map (fun p => (if neg then -p.1 else p.1, p.2))

mutual

/-- Fuel-indexed model of the `JSON.parse` value grammar: parses one JSON
value after skipping leading whitespace, returning the value and the rest of
the input.  The fuel only bounds nesting-and-sequence recursion; `jsonParse`
below supplies enough for any input of the given length. -/
def parseValue : Nat → List Char → Option (Json × List Char)
  | 0, _ => none
  | fuel + 1, cs =>
    match skipWs cs with
    | 't' :: 'r' :: 'u' :: 'e' :: r => some (Json.bool true, r)
    | 'f' :: 'a' :: 'l' :: 's' :: 'e' :: r => some (Json.bool false, r)
    | 'n' :: 'u' :: 'l' :: 'l' :: r => some (Json.null, r)
    | '"' :: r => (pString r).map (fun p => (Json.str p.1, p.2))
    | '[' :: r =>
      match skipWs r with
      | ']' :: r2 => some (Json.arr [], r2)
      | _ => (parseElems fuel r).map (fun p => (Json.arr p.1, p.2))
    | '\x7b' :: r =>
      match skipWs r with
      | '\x7d' :: r2 => some (Json.obj [], r2)
      | _ => (parseMembers fuel r).map (fun p => (Json.obj p.1, p.2))
    | c :: r =>
      if c = '-' ∨ c.isDigit then (pNumber (c :: r)).map (fun p => (Json.num p.1, p.2))
      else none
    | [] => none

/-- Comma-separated array elements up to the closing bracket. -/
def parseElems : Nat → List Char → Option (List Json × List Char)
  | 0, _ => none
  | fuel + 1, cs =>
    match parseValue fuel cs with
    | none => none
    | some (v, r) =>
      match skipWs r with
      | ',' :: r2 =>
        match parseElems fuel r2 with
        | some (l, r3) => some (v :: l, r3)
        | none => none
      | ']' :: r2 => some ([v], r2)
      | _ => none

/-- Comma-separated object members up to the closing brace; keys are kept in
source order (with duplicate keys, `jsField` reads the last, as the
`JSON.parse` last-wins assignment does). -/
def parseMembers : Nat → List Char → Option (List (String × Json) × List Char)
  | 0, _ => none
  | fuel + 1, cs =>
    match skipWs cs with
    | '"' :: r =>
      match pString r with
      | none => none
      | some (k, r1) =>
        match skipWs r1 with
        | ':' :: r2 =>
          match parseValue fuel r2 with
          | none => none
          | some (v, r3) =>
            match skipWs r3 with
            | ',' :: r4 =>
              match parseMembers fuel r4 with
              | some (l, r5) => some ((k, v) :: l, r5)
              | none => none
            | '\x7d' :: r4 => some ([(k, v)], r4)
            | _ => none
        | _ => none
    | _ => none

end

/-- Models `JSON.parse(s)`: parse one value, require only whitespace after
it; `none` stands for the thrown `SyntaxError`. -/
def jsonParse (s : String) : Option Json :=
  match parseValue (2 * s.length + 4) s.data with
  | some (v, r) => if (skipWs r).isEmpty then some v else none
  | none => none

/-- Embeds `parseJSON` (part_002 lines 64-73, identical in the older modal):
a falsy argument (absent or empty string) yields the fallback; a decode
failure is caught and yields the fallback; a decoded non-array yields the
fallback; a decoded array is returned as-is. -/
def parseJSON (jsonString : Option String) (fallback : List Json) : List Json :=
  match jsonString with
  | none => fallback
  | some s =>
    if s = "" then fallback
    else
      match jsonParse s with
      | some (Json.arr l) => l
      | some _ => fallback
      | none => fallback

/-- Embeds `mockPriceHistory` (part_002 lines 14-18): the hard-coded
six-point demo price series, Q1 of 2023 through Q2 of 2024. -/
def mockPriceHistory : List Json :=
  [Json.obj [("name", Json.str "Q1 \x2723"), ("price", Json.num 110)],
   Json.obj [("name", Json.str "Q2 \x2723"), ("price", Json.num 125)],
   Json.obj [("name", Json.str "Q3 \x2723"), ("price", Json.num 120)],
   Json.obj [("name", Json.str "Q4 \x2723"), ("price", Json.num 140)],
   Json.obj [("name", Json.str "Q1 \x2724"), ("price", Json.num 155)],
   Json.obj [("name", Json.str "Q2 \x2724"), ("price", Json.num 150)]]

/-- Embeds `mockFundingTable` from the older modal variant
(frontend CompanyModal.js lines 20-25): the four-row demo funding table. -/
def mockFundingTable : List Json :=
  [Json.obj [("funding_date", Json.str "2022-10-20"), ("share_class", Json.str "Series C"),
     ("amount_raised", Json.str "$250M"), ("price_per_share", Json.str "$45.10"),
     ("key_investors", Json.str "Sequoia, a16z")],
   Json.obj [("funding_date", Json.str "2021-05-15"), ("share_class", Json.str "Series B"),
     ("amount_raised", Json.str "$120M"), ("price_per_share", Json.str "$28.50"),
     ("key_investors", Json.str "Tiger Global")],
   Json.obj [("funding_date", Json.str "2020-02-01"), ("share_class", Json.str "Series A"),
     ("amount_raised", Json.str "$50M"), ("price_per_share", Json.str "$15.00"),
     ("key_investors", Json.str "Insight Partners")],
   Json.obj [("funding_date", Json.str "2019-01-10"), ("share_class", Json.str "Seed"),
     ("amount_raised", Json.str "$20M"), ("price_per_share", Json.str "$5.00"),
     ("key_investors", Json.str "Y Combinator")]]

/-- The slice of a backend company record the modal pipeline reads: the two
JSON-encoded history fields.  All other scalar fields pass through to the
rendering layer untouched and play no part in the claims, so they are not
repeated here. -/
structure CompanyRecord where
  price_history : Option String
  funding_history : Option String

/-- The derived view model the modal builds from a record: the price series,
the regular funding rounds, the optional totals row, and the per-year chart
series. -/
structure CompanyViewModel where
  priceHistory : List Json
  fundingRounds : List Json
  fundingTotals : Option Json
  fundingByYear : List (String × ℚ)

/-- Embeds the derivation block of `CompanyModal` (part_002 lines 75-108):
parse `price_history` with the mock series as fallback, parse
`funding_history` with the empty fallback, split off the totals row, and
aggregate the regular rows by year.  (The `Array.isArray` re-checks on lines
83-84 are always true since `parseJSON` only ever returns an array.) -/
def assemble (c : CompanyRecord) : CompanyViewModel :=
  { priceHistory := parseJSON c.price_history mockPriceHistory
    fundingRounds := regularRows (parseJSON c.funding_history [])
    fundingTotals := totalsRow (parseJSON c.funding_history [])
    fundingByYear := fundingHistoryChart (regularRows (parseJSON c.funding_history [])) }

/-- Embeds line 84 of the older modal variant (frontend CompanyModal.js):
`parseJSON(company.funding_history, mockFundingTable)` — the funding-table
fallback there is the four-row mock table, not the empty sequence. -/
def oldModalFundingTable (c : CompanyRecord) : List Json :=
  parseJSON c.funding_history mockFundingTable

/-- Embeds the classifier callback `row['Share Class'] === 'Totals'` with the
error path: evaluating it on a `null` row throws. -/
def isTotalsChecked (row : Json) : Except String Bool :=
  match jsFieldChecked row "Share Class" with
  | Except.error e => Except.error e
  | Except.ok (some (Json.str s)) => Except.ok (s == "Totals")
  | Except.ok _ => Except.ok false

/-- Embeds `fundingHistoryTable.find(...)` (part_002 line 83) with a throwing
callback: elements are visited left to right, the first match is returned,
and the first callback exception propagates. -/
def totalsRowChecked : List Json → Except String (Option Json)
  | [] => Except.ok none
  | r :: t =>
    match isTotalsChecked r with
    | Except.error e => Except.error e
    | Except.ok true => Except.ok (some r)
    | Except.ok false => totalsRowChecked t

/-- Embeds `fundingHistoryTable.filter(...)` (part_002 line 84) with a
throwing callback: every element is visited, so any `null` element in the
decoded table throws even when `find` stopped earlier. -/
def regularRowsChecked : List Json → Except String (List Json)
  | [] => Except.ok []
  | r :: t =>
    match isTotalsChecked r with
    | Except.error e => Except.error e
    | Except.ok b =>
      match regularRowsChecked t with
      | Except.error e => Except.error e
      | Except.ok l => Except.ok (if b then l else r :: l)

/-- The view-model derivation of part_002 lines 75-108 with the classifier's
error path made explicit: `Except.error` stands for an uncaught JS
`TypeError` thrown while rendering the modal.  The classifier (lines 83-84)
is the only place the derivation can throw: `parseJSON` catches its own
failures, and once both checked callbacks have succeeded every row is
non-null, on which the chart's property reads, `new Date`, `String` and
`parseFloat` never throw, so the total `fundingHistoryChart` model is sound
there. -/
def assembleChecked (c : CompanyRecord) : Except String CompanyViewModel :=
  match totalsRowChecked (parseJSON c.funding_history []) with
  | Except.error e => Except.error e
  | Except.ok tot =>
    match regularRowsChecked (parseJSON c.funding_history []) with
    | Except.error e => Except.error e
    | Except.ok regs =>
      Except.ok
        { priceHistory := parseJSON c.price_history mockPriceHistory
          fundingRounds := regs
          fundingTotals := tot
          fundingByYear := fundingHistoryChart regs }

/-- Embeds the JS object assignment `acc[key] = value`: an existing key keeps
its position and is overwritten, a fresh key is appended. -/
def setKey (acc : List (String × String)) (k v : String) : List (String × String) :=
  match acc with
  | [] => [(k, v)]
  | (k0, v0) :: t => if k0 = k then (k0, v) :: t else (k0, v0) :: setKey t k v

/-- Embeds the filter-stripping `reduce` of `handleAdvancedSearch`
(frontend App.js lines 41-44 and part_000 lines 43-48): keep an entry only
when its value is truthy, which for the form's string values means
nonempty. -/
def validFilters (filters : List (String × String)) : List (String × String) :=
  filters.foldl (fun acc kv => if kv.2 ≠ "" then setKey acc kv.1 kv.2 else acc) []

/-- True when the entry's `Date of Financing` field is truthy (the chart's
pre-filter on part_002 line 90). -/
def dateTruthy (r : Json) : Bool :=
  jsTruthy (jsField r "Date of Financing")

/-- The parsed monetary amount of an entry, `none` for `NaN`. -/
def amountOpt (r : Json) : Option ℚ :=
  jsAmount (jsField r "Total Financing Size")

/-- The parsed monetary amount of an entry, read as `0` when absent (only
ever applied to entries whose amount parses). -/
def amountVal (r : Json) : ℚ :=
  (amountOpt r).getD 0

/-- An entry survives aggregation filtering when its date field is truthy,
its amount parses, and its year string is nonempty. -/
def contributes (r : Json) : Bool :=
  dateTruthy r && (amountOpt r).isSome && !(yearStringOf r == "")

/-- The entries of a sequence that survive aggregation filtering. -/
def survivors (rows : List Json) : List Json :=
  rows.filter contributes

/-- Full-precision sum of the amounts of the surviving entries carrying the
given year string. -/
def yearSum (rows : List Json) (y : String) : ℚ :=
  (((survivors rows).filter (fun r => yearStringOf r == y)).map amountVal).sum

/-- First-match lookup in a year-bucket association list, defaulting to 0
(the `acc[year] || 0` read). -/
def lookupV (y : String) : List (String × ℚ) → ℚ
  | [] => 0
  | (k, v) :: t => if k = y then v else lookupV y t

/-- Contribution of a single already-date-filtered entry to the bucket of
year `y` in one `chartStep`. -/
def contribTo (y : String) (r : Json) : ℚ :=
  match amountOpt r with
  | some a => if yearStringOf r = "" then 0 else if yearStringOf r = y then a / 1000000 else 0
  | none => 0

theorem lookupV_addToYear_same (acc : List (String × ℚ)) (y : String) (x : ℚ) :
    lookupV y (addToYear acc y x) = lookupV y acc + x := by
  induction acc with
  | nil => simp [addToYear, lookupV]
  | cons kv t ih =>
    obtain ⟨k, v⟩ := kv
    by_cases hk : k = y
    · subst hk
      simp [addToYear, lookupV]
    · simp [addToYear, lookupV, hk, ih]

theorem lookupV_addToYear_ne (acc : List (String × ℚ)) {y z : String} (x : ℚ)
    (h : z ≠ y) : lookupV z (addToYear acc y x) = lookupV z acc := by
  induction acc with
  | nil => simp [addToYear, lookupV, Ne.symm h]
  | cons kv t ih =>
    obtain ⟨k, v⟩ := kv
    by_cases hk : k = y
    · subst hk
      have hkz : k ≠ z := fun hkz => h (hkz ▸ rfl)
      simp [addToYear, lookupV, hkz]
    · simp [addToYear, lookupV, hk, ih]

theorem keys_addToYear (acc : List (String × ℚ)) (y : String) (x : ℚ) :
    (addToYear acc y x).map Prod.fst =
      if y ∈ acc.map Prod.fst then acc.map Prod.fst else acc.map Prod.fst ++ [y] := by
  induction acc with
  | nil => simp [addToYear]
  | cons kv t ih =>
    obtain ⟨k, v⟩ := kv
    by_cases hk : k = y
    · subst hk
      simp [addToYear]
    · by_cases hy : y ∈ t.map Prod.fst
      · simp [addToYear, hk, ih, hy, Ne.symm hk]
      · simp [addToYear, hk, ih, hy, Ne.symm hk]

theorem nodup_keys_addToYear {acc : List (String × ℚ)} (y : String) (x : ℚ)
    (h : (acc.map Prod.fst).Nodup) : ((addToYear acc y x).map Prod.fst).Nodup := by
  rw [keys_addToYear]
  by_cases hy : y ∈ acc.map Prod.fst
  · simpa [hy] using h
  · simpa [hy, List.nodup_append] using h

theorem lookupV_of_mem {acc : List (String × ℚ)} {y : String} {v : ℚ}
    (hmem : (y, v) ∈ acc) (hnd : (acc.map Prod.fst).Nodup) : lookupV y acc = v := by
  induction acc with
  | nil => simp at hmem
  | cons kv t ih =>
    obtain ⟨k, w⟩ := kv
    rcases List.mem_cons.mp hmem with h | h
    · obtain ⟨h1, h2⟩ := Prod.mk.injEq .. ▸ h
      injection h with h'
      simp_all [lookupV]
    · have hk : k ≠ y := by
        rintro rfl
        have : k ∈ t.map Prod.fst := List.mem_map.mpr ⟨(k, v), h, rfl⟩
        simp_all
      have hnd' : (t.map Prod.fst).Nodup := by simp_all
      simp [lookupV, hk, ih h hnd']

theorem lookupV_chartStep (acc : List (String × ℚ)) (r : Json) (y : String) :
    lookupV y (chartStep acc r) = lookupV y acc + contribTo y r := by
  unfold chartStep contribTo
  cases hA : jsAmount (jsField r "Total Financing Size") with
  | none => simp [amountOpt, hA]
  | some a =>
    by_cases hblank : yearStringOf r = ""
    · simp [amountOpt, hA, hblank]
    · by_cases hy : yearStringOf r = y
      · rw [hy] at hblank ⊢
        simp only [amountOpt, hA, if_neg hblank, if_pos rfl]
        simpa using lookupV_addToYear_same acc y (a / 1000000)
      · simp only [amountOpt, hA, if_neg hblank, if_neg hy]
        rw [lookupV_addToYear_ne acc (a / 1000000) (Ne.symm hy)]
        simp

theorem lookupV_foldl_chartStep (l : List Json) (y : String) :
    ∀ acc, lookupV y (l.foldl chartStep acc) =
      lookupV y acc + (l.map (contribTo y)).sum := by
  induction l with
  | nil => intro acc; simp
  | cons r t ih =>
    intro acc
    simp only [List.foldl_cons, List.map_cons, List.sum_cons]
    rw [ih (chartStep acc r), lookupV_chartStep]
    ring

theorem nodup_keys_chartStep {acc : List (String × ℚ)} (r : Json)
    (h : (acc.map Prod.fst).Nodup) : ((chartStep acc r).map Prod.fst).Nodup := by
  unfold chartStep
  cases jsAmount (jsField r "Total Financing Size") with
  | none => exact h
  | some a =>
    by_cases hblank : yearStringOf r = ""
    · simpa [hblank] using h
    · simpa [hblank] using nodup_keys_addToYear (yearStringOf r) (a / 1000000) h

theorem nodup_keys_foldl_chartStep (l : List Json) :
    ∀ acc, (acc.map Prod.fst).Nodup → ((l.foldl chartStep acc).map Prod.fst).Nodup := by
  induction l with
  | nil => intro acc h; simpa using h
  | cons r t ih =>
    intro acc h
    exact ih (chartStep acc r) (nodup_keys_chartStep r h)

theorem foldl_chartStep_neutral (l : List Json) :
    ∀ acc, (∀ r ∈ l, amountOpt r = none ∨ yearStringOf r = "") →
      l.foldl chartStep acc = acc := by
  induction l with
  | nil => intro acc _; rfl
  | cons r t ih =>
    intro acc h
    have hstep : chartStep acc r = acc := by
      unfold chartStep
      rcases h r (List.mem_cons_self r t) with hA | hY
      · simp [amountOpt] at hA
        simp [hA]
      · cases hA : jsAmount (jsField r "Total Financing Size") with
        | none => simp
        | some a => simp [hY]
    simp only [List.foldl_cons, hstep]
    exact ih acc (fun r' hr' => h r' (List.mem_cons_of_mem r hr'))

theorem sum_map_ite {α : Type} (l : List α) (p : α → Bool) (f : α → ℚ) :
    (l.map (fun r => if p r then f r else 0)).sum = ((l.filter p).map f).sum := by
  induction l with
  | nil => simp
  | cons a t ih => by_cases h : p a <;> simp [h, ih]

theorem sum_map_div {α : Type} (l : List α) (f : α → ℚ) (c : ℚ) :
    (l.map (fun r => f r / c)).sum = (l.map f).sum / c := by
  induction l with
  | nil => simp
  | cons a t ih => simp [ih, add_div]

theorem contribTo_eq_ite (y : String) (r : Json) :
    contribTo y r =
      if (amountOpt r).isSome && (!(yearStringOf r == "") && (yearStringOf r == y)) then
        amountVal r / 1000000
      else 0 := by
  unfold contribTo amountVal
  cases hA : amountOpt r with
  | none => simp
  | some a =>
    by_cases h1 : yearStringOf r = ""
    · by_cases h2 : yearStringOf r = y <;> simp [h1, h2]
    · by_cases h2 : yearStringOf r = y <;> simp [h1, h2]

theorem sum_contribTo (entries : List Json) (y : String) :
    (((entries.filter dateTruthy).map (contribTo y)).sum) = yearSum entries y / 1000000 := by
  have h1 : ((entries.filter dateTruthy).map (contribTo y)) =
      (entries.filter dateTruthy).map
        (fun r =>
          if (amountOpt r).isSome && (!(yearStringOf r == "") && (yearStringOf r == y)) then
            amountVal r / 1000000
          else 0) :=
    List.map_congr_left (fun r _ => contribTo_eq_ite y r)
  rw [h1, sum_map_ite, List.filter_filter]
  have h2 : entries.filter
        (fun a =>
          ((amountOpt a).isSome && (!(yearStringOf a == "") && (yearStringOf a == y))) &&
            dateTruthy a) =
      (survivors entries).filter (fun r => yearStringOf r == y) := by
    rw [survivors, List.filter_filter]
    apply List.filter_congr
    intro r _
    cases hd : dateTruthy r <;> cases hs : (amountOpt r).isSome <;>
      cases hy0 : (yearStringOf r == "") <;> cases hyy : (yearStringOf r == y) <;>
        simp [contributes, hd, hs, hy0, hyy]
  rw [h2, yearSum, ← sum_map_div]

theorem ite_length_pos {α : Type} (l : List α) :
    (if l.length > 0 then l else []) = l := by
  cases l <;> simp

theorem fundingHistoryChart_eq (entries : List Json) :
    fundingHistoryChart entries =
      List.insertionSort (fun p q : String × ℚ => p.1 ≤ q.1)
        (((entries.filter (fun r => jsTruthy (jsField r "Date of Financing"))).foldl
            chartStep []).map (fun p => (p.1, round2 p.2))) := by
  unfold fundingHistoryChart
  exact ite_length_pos _

theorem chart_mem_amount (entries : List Json) :
    ∀ p ∈ fundingHistoryChart entries, p.2 = round2 (yearSum entries p.1 / 1000000) := by
  intro p hp
  rw [fundingHistoryChart_eq] at hp
  have hp2 := (List.mem_insertionSort _).mp hp
  obtain ⟨q, hq, hpq⟩ := List.mem_map.mp hp2
  obtain ⟨qy, qv⟩ := q
  have hnd : ((((entries.filter
        (fun r => jsTruthy (jsField r "Date of Financing"))).foldl chartStep []).map
          Prod.fst)).Nodup :=
    nodup_keys_foldl_chartStep _ [] (by simp)
  have hla := lookupV_of_mem hq hnd
  have hsum := lookupV_foldl_chartStep
    (entries.filter (fun r => jsTruthy (jsField r "Date of Financing"))) qy []
  rw [hla] at hsum
  simp only [lookupV] at hsum
  have hdt : (entries.filter (fun r => jsTruthy (jsField r "Date of Financing"))) =
      entries.filter dateTruthy := rfl
  rw [hdt, sum_contribTo, zero_add] at hsum
  rw [← hpq]
  simp [hsum]

theorem chart_keys_nodup (entries : List Json) :
    ((fundingHistoryChart entries).map Prod.fst).Nodup := by
  rw [fundingHistoryChart_eq]
  have hperm := List.perm_insertionSort (fun p q : String × ℚ => p.1 ≤ q.1)
    (((entries.filter (fun r => jsTruthy (jsField r "Date of Financing"))).foldl
        chartStep []).map (fun p => (p.1, round2 p.2)))
  refine (List.Perm.nodup_iff (hperm.map Prod.fst)).mpr ?_
  rw [List.map_map]
  have hcomp : (Prod.fst ∘ fun p : String × ℚ => (p.1, round2 p.2)) = Prod.fst := by
    funext p
    rfl
  rw [hcomp]
  exact nodup_keys_foldl_chartStep _ [] (by simp)

instance chartRelTotal : IsTotal (String × ℚ) (fun p q => p.1 ≤ q.1) :=
  ⟨fun a b => le_total a.1 b.1⟩

instance chartRelTrans : IsTrans (String × ℚ) (fun p q => p.1 ≤ q.1) :=
  ⟨fun _ _ _ h1 h2 => le_trans h1 h2⟩

theorem chart_sorted_strict (entries : List Json) :
    (fundingHistoryChart entries).Pairwise (fun p q => p.1 < q.1) := by
  have hle : (fundingHistoryChart entries).Pairwise (fun p q : String × ℚ => p.1 ≤ q.1) := by
    rw [fundingHistoryChart_eq]
    exact List.sorted_insertionSort _ _
  have hne : (fundingHistoryChart entries).Pairwise (fun p q : String × ℚ => p.1 ≠ q.1) := by
    have := chart_keys_nodup entries
    rw [List.Nodup, List.pairwise_map] at this
    exact this
  exact (hle.and hne).imp (fun h => lt_of_le_of_ne h.1 h.2)

theorem chart_empty_of_no_survivors (entries : List Json)
    (h : survivors entries = []) : fundingHistoryChart entries = [] := by
  rw [fundingHistoryChart_eq]
  have hall : ∀ r ∈ entries, ¬(contributes r = true) := by
    rw [survivors] at h
    exact fun r hr => by
      have := List.filter_eq_nil_iff.mp h r hr
      simpa using this
  have hneutral : ∀ r ∈ entries.filter (fun r => jsTruthy (jsField r "Date of Financing")),
      amountOpt r = none ∨ yearStringOf r = "" := by
    intro r hr
    have hdt : dateTruthy r = true := List.of_mem_filter hr
    have hmem : r ∈ entries := List.mem_of_mem_filter hr
    have hnc := hall r hmem
    by_cases hA : (amountOpt r).isSome
    · right
      by_cases hY : yearStringOf r = ""
      · exact hY
      · exact absurd (by simp [contributes, hdt, hA, hY]) hnc
    · left
      simpa [Option.isSome_iff_exists, Option.eq_none_iff_forall_not_mem] using hA
  rw [foldl_chartStep_neutral _ [] hneutral]
  rfl

/-- The head of a filtered list is the first element satisfying the
predicate (connects the `filter`-based reading of the classifier with the
`find`-based one). -/
theorem head?_filter {α : Type} (p : α → Bool) (l : List α) :
    (l.filter p).head? = l.find? p := by
  induction l with
  | nil => rfl
  | cons a t ih => by_cases h : p a <;> simp [h, ih]

theorem setKey_fresh (acc : List (String × String)) (k v : String)
    (h : k ∉ acc.map Prod.fst) : setKey acc k v = acc ++ [(k, v)] := by
  induction acc with
  | nil => rfl
  | cons kv0 t ih =>
    obtain ⟨k0, v0⟩ := kv0
    have hk0 : k0 ≠ k := by
      rintro rfl
      exact h (by simp)
    simp only [setKey, if_neg hk0, List.cons_append]
    rw [ih (fun hx => h (by simp [hx]))]

theorem foldl_validStep (filters : List (String × String)) :
    ∀ acc, (filters.map Prod.fst).Nodup →
      (∀ x ∈ filters.map Prod.fst, x ∉ acc.map Prod.fst) →
      filters.foldl (fun acc kv => if kv.2 ≠ "" then setKey acc kv.1 kv.2 else acc) acc =
        acc ++ filters.filter (fun kv => kv.2 ≠ "") := by
  induction filters with
  | nil => intro acc _ _; simp
  | cons kv t ih =>
    intro acc hnd hdisj
    obtain ⟨k, v⟩ := kv
    have hnd' : (k :: t.map Prod.fst).Nodup := by simpa using hnd
    have hknd : k ∉ t.map Prod.fst := (List.nodup_cons.mp hnd').1
    have htnd : (t.map Prod.fst).Nodup := (List.nodup_cons.mp hnd').2
    by_cases hv : v ≠ ""
    · have hkfresh : k ∉ acc.map Prod.fst := hdisj k (by simp)
      have hstep : setKey acc k v = acc ++ [(k, v)] := setKey_fresh acc k v hkfresh
      simp only [List.foldl_cons, if_pos hv, hstep]
      rw [ih (acc ++ [(k, v)]) htnd ?_]
      · simp [List.filter_cons, hv]
      · intro x hx hxacc
        rcases (by simpa using hxacc : (∃ y, (x, y) ∈ acc) ∨ x = k) with ⟨y, hxa⟩ | hxk
        · exact hdisj x (by simp [hx]) (List.mem_map.mpr ⟨(x, y), hxa, rfl⟩)
        · exact hknd (hxk ▸ hx)
    · simp only [List.foldl_cons, if_neg hv]
      rw [ih acc htnd (fun x hx => hdisj x (by simp [hx]))]
      simp only [not_not] at hv
      simp [List.filter_cons, hv]

theorem validFilters_eq {filters : List (String × String)}
    (h : (filters.map Prod.fst).Nodup) :
    validFilters filters = filters.filter (fun kv => kv.2 ≠ "") := by
  have := foldl_validStep filters [] h (by simp)
  simpa [validFilters] using this

/-- The funding entry from the spec's aggregator test whose date does not
parse as a calendar date. -/
def invalidDateEntry : Json :=
  Json.obj [("Date of Financing", Json.str "not-a-date"),
    ("Total Financing Size", Json.str "$5")]

/-- First entry of the spec's two-entry aggregation example. -/
def roundJul2021 : Json :=
  Json.obj [("Date of Financing", Json.str "7/22/2021"),
    ("Total Financing Size", Json.str "$205,900,014.30")]

/-- Second entry of the spec's two-entry aggregation example. -/
def roundMar2021 : Json :=
  Json.obj [("Date of Financing", Json.str "3/1/2021"),
    ("Total Financing Size", Json.str "$94,099,985.70")]

/-- A minimal totals-labelled row. -/
def totalsRowA : Json :=
  Json.obj [("Share Class", Json.str "Totals")]

/-- A second, distinct totals-labelled row. -/
def totalsRowB : Json :=
  Json.obj [("Share Class", Json.str "Totals"), ("Total Financing Size", Json.str "$9")]

/-- The `funding_history` payload of the spec's end-to-end scenario. -/
def scenarioFundingHistory : String :=
  "[\x7b\"Date of Financing\":\"1/1/2020\",\"Share Class\":\"Seed\",\"Total Financing Size\":\"$1,000,000\"\x7d,\x7b\"Share Class\":\"Totals\",\"Total Financing Size\":\"$1,000,000\"\x7d]"

/-- The record of the spec's end-to-end scenario (no price history). -/
def scenarioRecord : CompanyRecord :=
  { price_history := none, funding_history := some scenarioFundingHistory }

/-- The decoded Seed round of the scenario. -/
def seedRound : Json :=
  Json.obj [("Date of Financing", Json.str "1/1/2020"), ("Share Class", Json.str "Seed"),
    ("Total Financing Size", Json.str "$1,000,000")]

/-- The decoded Totals row of the scenario. -/
def scenarioTotals : Json :=
  Json.obj [("Share Class", Json.str "Totals"), ("Total Financing Size", Json.str "$1,000,000")]

/-- Fallback characterisation of `parseJSON`: an absent, empty, undecodable
or non-array payload yields the fallback unchanged. -/
theorem parseJSON_fallback (s? : Option String) (fb : List Json)
    (h : s? = none ∨ s? = some "" ∨ (∃ s, s? = some s ∧ jsonParse s = none) ∨
      (∃ s v, s? = some s ∧ jsonParse s = some v ∧ ∀ l, v ≠ Json.arr l)) :
    parseJSON s? fb = fb := by
  rcases h with h | h | ⟨s, hs, hp⟩ | ⟨s, v, hs, hp, hv⟩
  · rw [h]; rfl
  · rw [h]; rfl
  · rw [hs]
    by_cases he : s = ""
    · simp [parseJSON, he]
    · simp [parseJSON, he, hp]
  · rw [hs]
    by_cases he : s = ""
    · simp [parseJSON, he]
    · cases v with
      | arr l => exact absurd rfl (hv l)
      | null => simp [parseJSON, he, hp]
      | bool b => simp [parseJSON, he, hp]
      | num q => simp [parseJSON, he, hp]
      | str t => simp [parseJSON, he, hp]
      | obj o => simp [parseJSON, he, hp]

theorem classify_perm_of_at_most_one :
    ∀ rows : List Json, rows.countP isTotals ≤ 1 →
      (regularRows rows ++ (totalsRow rows).toList).Perm rows := by
  intro rows
  induction rows with
  | nil => intro _; simp [regularRows, totalsRow]
  | cons r t ih =>
    intro h
    by_cases hr : isTotals r
    · have h0 : t.countP isTotals = 0 := by
        rw [List.countP_cons_of_pos _ _ hr] at h
        omega
      have hall := List.countP_eq_zero.mp h0
      have hreg : regularRows (r :: t) = t := by
        simp only [regularRows, List.filter_cons, hr, Bool.not_true, Bool.false_eq_true,
          if_false]
        exact List.filter_eq_self.mpr (fun a ha => by simp [hall a ha])
      have htot : totalsRow (r :: t) = some r := by
        rw [totalsRow, List.find?_cons_of_pos _ hr]
      rw [hreg, htot]
      exact List.perm_append_singleton r t
    · have ht : t.countP isTotals ≤ 1 := by
        rw [List.countP_cons_of_neg _ _ hr] at h
        exact h
      have hreg : regularRows (r :: t) = r :: regularRows t := by
        simp [regularRows, List.filter_cons, hr]
      have htot : totalsRow (r :: t) = totalsRow t := by
        rw [totalsRow, List.find?_cons_of_neg _ hr]
        rfl
      rw [hreg, htot]
      simpa only [List.cons_append] using (ih ht).cons r

/-- C1: the spec says an entry with an absent or unparseable
`date_of_financing` is skipped, and that aggregating the single entry with
date `not-a-date` and amount `$5` yields the empty sequence with no `NaN`
bucket.  The code disagrees at exactly this input: `getFullYear()` of an
invalid date is `NaN`, its string form `NaN` is a nonempty — hence truthy —
string, so the `if (year && ...)` guard passes and a `NaN` year bucket is
emitted (amount `$5` in millions rounds to `0.00`). -/
theorem c1_unparseable_date_creates_nan_bucket :
    fundingHistoryChart [invalidDateEntry] = [("NaN", 0)] := by
  with_unfolding_all decide

/-- C2 counterexample: with two totals-labelled rows, the classifier takes
the first as the totals row, but the second does not appear among the
regular rows — `filter` removes every match, so nothing degrades to a
regular row as the claim states. -/
theorem c2_counterexample :
    totalsRow [totalsRowA, totalsRowB] = some totalsRowA ∧
      totalsRowB ∉ regularRows [totalsRowA, totalsRowB] := by
  refine ⟨rfl, ?_⟩
  intro hmem
  rw [show regularRows [totalsRowA, totalsRowB] = [] from rfl] at hmem
  exact (List.not_mem_nil totalsRowB) hmem

/-- C2 amended: for every sequence with two or more totals-labelled entries,
the classifier returns the first match as the totals row, and every
matching entry — the first and all subsequent ones — is excluded from the
regular sequence (subsequent matches are dropped, not degraded to regular
rows). -/
theorem c2_amended (rows : List Json) (_h : 2 ≤ rows.countP isTotals) :
    totalsRow rows = (rows.filter isTotals).head? ∧
      ∀ e ∈ rows, isTotals e = true → e ∉ regularRows rows := by
  refine ⟨(head?_filter isTotals rows).symm, ?_⟩
  intro e _ hT hmem
  have hpass := List.of_mem_filter hmem
  simp [hT] at hpass

/-- C2 amended, witnessed at the two-totals-row input. -/
theorem c2_amended_witness :
    2 ≤ ([totalsRowA, totalsRowB] : List Json).countP isTotals ∧
      (totalsRow [totalsRowA, totalsRowB] =
          (([totalsRowA, totalsRowB] : List Json).filter isTotals).head? ∧
        ∀ e ∈ ([totalsRowA, totalsRowB] : List Json), isTotals e = true →
          e ∉ regularRows [totalsRowA, totalsRowB]) :=
  ⟨by decide, c2_amended [totalsRowA, totalsRowB] (by decide)⟩

/-- C3: `parse_json_field` never raises: an absent or empty argument returns
the fallback unchanged, a decoded JSON array is returned as-is, a decode
failure returns the fallback, and a decoded non-array value returns the
fallback (the function is total by construction in this model, which is the
no-exception guarantee). -/
theorem c3_parse_json_field (fb : List Json) :
    parseJSON none fb = fb ∧
      parseJSON (some "") fb = fb ∧
      (∀ s l, jsonParse s = some (Json.arr l) → parseJSON (some s) fb = l) ∧
      (∀ s, jsonParse s = none → parseJSON (some s) fb = fb) ∧
      (∀ s v, jsonParse s = some v → (∀ l, v ≠ Json.arr l) → parseJSON (some s) fb = fb) := by
  refine ⟨rfl, rfl, ?_, ?_, ?_⟩
  · intro s l h
    have hs : s ≠ "" := by
      rintro rfl
      rw [show jsonParse "" = none from rfl] at h
      exact Option.noConfusion h
    simp [parseJSON, hs, h]
  · intro s h
    by_cases hs : s = ""
    · simp [parseJSON, hs]
    · simp [parseJSON, hs, h]
  · intro s v h hv
    exact parseJSON_fallback (some s) fb (Or.inr (Or.inr (Or.inr ⟨s, v, rfl, h, hv⟩)))

/-- C3 witnessed on a decoding array and on an undecodable string. -/
theorem c3_witness :
    parseJSON (some "[\"a\"]") [] = [Json.str "a"] ∧
      parseJSON (some "nope") mockPriceHistory = mockPriceHistory :=
  ⟨(c3_parse_json_field []).2.2.1 "[\"a\"]" [Json.str "a"] rfl,
    (c3_parse_json_field mockPriceHistory).2.2.2.1 "nope" rfl⟩

set_option maxRecDepth 4000 in
/-- C4: a totals-labelled entry appears in neither the regular rounds nor
the chart input — removing it from the input changes neither `regularRows`
nor the year chart; and the spec's end-to-end scenario assembles to exactly
one Seed funding round, the Totals entry as `funding_totals`, the mock
price fallback, and the single bucket for year 2020 with amount 1.00
million. -/
theorem c4_totals_excluded (l₁ l₂ : List Json) (e : Json) (he : isTotals e = true) :
    (e ∉ regularRows (l₁ ++ e :: l₂) ∧
      regularRows (l₁ ++ e :: l₂) = regularRows (l₁ ++ l₂) ∧
      fundingHistoryChart (regularRows (l₁ ++ e :: l₂)) =
        fundingHistoryChart (regularRows (l₁ ++ l₂))) ∧
      assemble scenarioRecord =
        { priceHistory := mockPriceHistory, fundingRounds := [seedRound],
          fundingTotals := some scenarioTotals, fundingByYear := [("2020", 1)] } := by
  constructor
  · have hreg : regularRows (l₁ ++ e :: l₂) = regularRows (l₁ ++ l₂) := by
      simp [regularRows, List.filter_append, List.filter_cons, he]
    refine ⟨?_, hreg, by rw [hreg]⟩
    intro hmem
    have hpass := List.of_mem_filter hmem
    simp [he] at hpass
  · with_unfolding_all rfl

/-- C4 witnessed at the scenario's Totals entry. -/
theorem c4_witness :
    isTotals scenarioTotals = true ∧
      scenarioTotals ∉ regularRows ([] ++ scenarioTotals :: []) :=
  ⟨rfl, (c4_totals_excluded [] [] scenarioTotals rfl).1.1⟩

/-- C5: the aggregated series has pairwise-distinct years, is strictly
sorted by lexicographic string comparison of the year, every emitted amount
is the full-precision sum of the surviving entries of that year divided by
one million and rounded once, and when no entry survives filtering the
result is the empty sequence. -/
theorem c5_aggregate_invariants (entries : List Json) :
    ((fundingHistoryChart entries).map Prod.fst).Nodup ∧
      (fundingHistoryChart entries).Pairwise (fun p q => p.1 < q.1) ∧
      (∀ p ∈ fundingHistoryChart entries, p.2 = round2 (yearSum entries p.1 / 1000000)) ∧
      (survivors entries = [] → fundingHistoryChart entries = []) :=
  ⟨chart_keys_nodup entries, chart_sorted_strict entries, chart_mem_amount entries,
    chart_empty_of_no_survivors entries⟩

/-- C5 witnessed on the two-entry 2021 example and on the empty input. -/
theorem c5_witness :
    ("2021", (300 : ℚ)).2 = round2 (yearSum [roundJul2021, roundMar2021] "2021" / 1000000) ∧
      fundingHistoryChart [] = [] :=
  ⟨(c5_aggregate_invariants [roundJul2021, roundMar2021]).2.2.1 ("2021", 300)
      (by with_unfolding_all decide),
    (c5_aggregate_invariants []).2.2.2 rfl⟩

/-- C6: every emitted amount equals the full-precision per-year sum divided
by 1,000,000 and rounded to two decimals exactly once at emission, and the
spec's two 2021 entries aggregate to exactly the single bucket
(2021, 300.00). -/
theorem c6_millions_round_once (entries : List Json) :
    (∀ p ∈ fundingHistoryChart entries, p.2 = round2 (yearSum entries p.1 / 1000000)) ∧
      fundingHistoryChart [roundJul2021, roundMar2021] = [("2021", 300)] :=
  ⟨chart_mem_amount entries, by with_unfolding_all decide⟩

/-- C6 witnessed at the bucket the example produces. -/
theorem c6_witness :
    ("2021", (300 : ℚ)).2 = round2 (yearSum [roundJul2021, roundMar2021] "2021" / 1000000) :=
  (c6_millions_round_once [roundJul2021, roundMar2021]).1 ("2021", 300)
    (by with_unfolding_all decide)

/-- C7 counterexample: with two totals-labelled rows, regular rows plus the
selected totals row is not a permutation of the input — the second totals
row is lost entirely. -/
theorem c7_counterexample :
    ¬ ((regularRows [totalsRowA, totalsRowB] ++
        (totalsRow [totalsRowA, totalsRowB]).toList).Perm [totalsRowA, totalsRowB]) := by
  intro hperm
  have hlen := hperm.length_eq
  rw [show regularRows [totalsRowA, totalsRowB] = [] from rfl,
    show totalsRow [totalsRowA, totalsRowB] = some totalsRowA from rfl] at hlen
  simp at hlen

/-- C7 amended: the regular rows are always a stable (order-preserving)
sub-sequence of the input, and when the input holds at most one
totals-labelled row, the regular rows together with the totals row form a
permutation of the input; with more than one, the extra totals rows are
dropped. -/
theorem c7_amended (rows : List Json) :
    (regularRows rows).Sublist rows ∧
      (rows.countP isTotals ≤ 1 →
        (regularRows rows ++ (totalsRow rows).toList).Perm rows) :=
  ⟨List.filter_sublist rows, classify_perm_of_at_most_one rows⟩

/-- C7 amended, witnessed on a Seed row plus one Totals row. -/
theorem c7_witness :
    ([seedRound, scenarioTotals] : List Json).countP isTotals ≤ 1 ∧
      (regularRows [seedRound, scenarioTotals] ++
        (totalsRow [seedRound, scenarioTotals]).toList).Perm [seedRound, scenarioTotals] :=
  ⟨by decide, (c7_amended [seedRound, scenarioTotals]).2 (by decide)⟩

/-- C8: the claim (with the spec) says view-model assembly never throws —
every internal failure degrades to an empty or skipped sub-result — but the
code throws on a reachable record: `funding_history = "[null]"` is a valid
JSON array containing `null`, the field parser returns it as-is (no
element-shape validation), and the classifier callback at part_002 line 83
then evaluates the property read on a `null` row, an uncaught `TypeError`
in JS.  The checked model evaluates the derivation at exactly that record
to the thrown error.  (Determinism and the absence of record mutation do
hold — the derivation is a pure function of the record — but the
never-throws conjunct fails, so the claim fails.) -/
theorem c8_assemble_throws_on_null_row :
    jsonParse "[null]" = some (Json.arr [Json.null]) ∧
      assembleChecked { price_history := none, funding_history := some "[null]" } =
        Except.error "TypeError" :=
  ⟨rfl, rfl⟩

/-- C9: the advanced-search caller strips exactly the empty-string filters:
for any filter mapping (distinct field names, as a JS object has), the
query object holds precisely the entries with nonempty values, in order. -/
theorem c9_valid_filters (filters : List (String × String))
    (h : (filters.map Prod.fst).Nodup) :
    validFilters filters = filters.filter (fun kv => kv.2 ≠ "") ∧
      ∀ kv, kv ∈ validFilters filters ↔ kv ∈ filters ∧ kv.2 ≠ "" := by
  have heq := validFilters_eq h
  refine ⟨heq, fun kv => ?_⟩
  rw [heq, List.mem_filter]
  simp

/-- C9 witnessed on a two-field form with one empty filter. -/
theorem c9_witness :
    ((([("name", "acme"), ("sector", "")] : List (String × String)).map Prod.fst).Nodup) ∧
      validFilters [("name", "acme"), ("sector", "")] =
        ([("name", "acme"), ("sector", "")] : List (String × String)).filter
          (fun kv => kv.2 ≠ "") :=
  ⟨by decide, (c9_valid_filters [("name", "acme"), ("sector", "")] (by decide)).1⟩

/-- C10: an absent, empty, undecodable or non-array `price_history` yields
the hard-coded six-point mock price series (not the empty sequence), and in
the older modal variant the funding-history fallback is likewise the
four-row mock table. -/
theorem c10_mock_fallbacks :
    mockPriceHistory.length = 6 ∧ mockFundingTable.length = 4 ∧
      (∀ r : CompanyRecord,
        (r.price_history = none ∨ r.price_history = some "" ∨
          (∃ s, r.price_history = some s ∧ jsonParse s = none) ∨
          (∃ s v, r.price_history = some s ∧ jsonParse s = some v ∧ ∀ l, v ≠ Json.arr l)) →
          (assemble r).priceHistory = mockPriceHistory ∧ (assemble r).priceHistory ≠ []) ∧
      (∀ r : CompanyRecord,
        (r.funding_history = none ∨ r.funding_history = some "" ∨
          (∃ s, r.funding_history = some s ∧ jsonParse s = none) ∨
          (∃ s v, r.funding_history = some s ∧ jsonParse s = some v ∧ ∀ l, v ≠ Json.arr l)) →
          oldModalFundingTable r = mockFundingTable) := by
  refine ⟨rfl, rfl, ?_, ?_⟩
  · intro r h
    have hph : (assemble r).priceHistory = mockPriceHistory := parseJSON_fallback _ _ h
    refine ⟨hph, ?_⟩
    rw [hph]
    simp [mockPriceHistory]
  · intro r h
    exact parseJSON_fallback _ _ h

/-- C10 witnessed at records with an undecodable payload. -/
theorem c10_witness :
    (assemble { price_history := some "zzz", funding_history := none }).priceHistory =
        mockPriceHistory ∧
      oldModalFundingTable { price_history := none, funding_history := some "zzz" } =
        mockFundingTable :=
  ⟨(c10_mock_fallbacks.2.2.1 { price_history := some "zzz", funding_history := none }
      (Or.inr (Or.inr (Or.inl ⟨"zzz", rfl, rfl⟩)))).1,
    c10_mock_fallbacks.2.2.2 { price_history := none, funding_history := some "zzz" }
      (Or.inr (Or.inr (Or.inl ⟨"zzz", rfl, rfl⟩)))⟩

end Sheet
